import Mathlib

set_option maxRecDepth 100000

/-!
Verification development for the TSPL thermal-label CUPS driver
(`main.go`).  The Go source is shallowly embedded: strings are lists of
characters, the mutable package-level configuration becomes an explicit
`Config` value threaded through the functions, float64 millimetre
arithmetic is modelled over `ℚ` (the values exercised here are far from
any rounding boundary of binary floating point, see the comments at the
individual definitions), and the file-system / device side effects of
the backend are modelled by an explicit event trace.
-/

/-! ## Strings as character lists (Go `string` values) -/

/-- Go `unicode.IsSpace` restricted to the ASCII white-space characters
(the only ones that occur in CUPS option strings). -/
def isSpaceGo (c : Char) : Bool :=
  c == ' ' || c == '\t' || c == '\n' || c == '\x0b' || c == '\x0c' || c == '\r'

/-- Accumulator-based splitter behind `goFields`. -/
def goFieldsAux : List Char → List Char → List (List Char)
  | acc, [] => if acc.isEmpty then [] else [acc.reverse]
  | acc, c :: cs =>
    if isSpaceGo c then
      if acc.isEmpty then goFieldsAux [] cs else acc.reverse :: goFieldsAux [] cs
    else goFieldsAux (c :: acc) cs

/-- Go `strings.Fields`: split around runs of white space, dropping
empty fields. -/
def goFields (s : List Char) : List (List Char) :=
  goFieldsAux [] s

/-- `needle.isPrefixOf hay` spelled out; Go `strings.HasPrefix`. -/
def startsList : List Char → List Char → Bool
  | [], _ => true
  | _ :: _, [] => false
  | a :: as, b :: bs => a == b && startsList as bs

/-- Go `strings.Contains(s, string(c))` for a one-character needle. -/
def listHas (s : List Char) (c : Char) : Bool :=
  s.any (fun d => d == c)

/-- Go `strings.Contains` for an arbitrary needle. -/
def strContainsSub (hay needle : List Char) : Bool :=
  (List.range (hay.length + 1)).any (fun i => startsList needle (hay.drop i))

/-- Go `strings.ToLower` (ASCII case folding suffices for the inputs
the driver sees). -/
def strLower (s : List Char) : List Char :=
  s.map Char.toLower

/-- Go `path/filepath.Base`: empty input gives ".", trailing slashes
are dropped, then everything up to the final slash is removed; an
all-slash input gives "/". -/
def goBase (p : List Char) : List Char :=
  if p.isEmpty then ['.']
  else
    let t := (p.reverse.dropWhile (fun c => c == '/')).reverse
    if t.isEmpty then ['/']
    else (t.reverse.takeWhile (fun c => !(c == '/'))).reverse

/-- The part of a token before the first '=' (Go `strings.Cut`). -/
def cutKey : List Char → List Char
  | [] => []
  | c :: cs => if c == '=' then [] else c :: cutKey cs

/-- The part of a token after the first '=' (Go `strings.Cut`). -/
def cutVal : List Char → List Char
  | [] => []
  | c :: cs => if c == '=' then cs else cutVal cs

/-- Go `strings.TrimSuffix(v, "mm")`: drop one trailing "mm" if present. -/
def trimSuffixMm (s : List Char) : List Char :=
  match s.reverse with
  | 'm' :: 'm' :: rest => rest.reverse
  | _ => s

/-- Go `strings.Split(s, "x")`: split at every 'x', keeping empty parts. -/
def splitAllOn (c : Char) : List Char → List (List Char)
  | [] => [[]]
  | d :: ds =>
    let rest := splitAllOn c ds
    if d == c then [] :: rest
    else
      match rest with
      | [] => [[d]]
      | r :: rs => (d :: r) :: rs

/-- Everything after the first ':' — `strings.SplitN(dev, ":", 2)[1]`. -/
def afterColon : List Char → List Char
  | [] => []
  | c :: cs => if c == ':' then cs else afterColon cs

/-- Go `strings.TrimPrefix(s, "//")`: strip one leading "//". -/
def trimLeadSlash2 (s : List Char) : List Char :=
  match s with
  | '/' :: '/' :: rest => rest
  | _ => s

/-! ## Numeric parsing (Go `strconv`) -/

/-- Numeric value of a decimal digit character. -/
def digitVal (c : Char) : Nat :=
  c.toNat - '0'.toNat

/-- Decimal digits to a natural number, most significant first. -/
def digitsToNat (s : List Char) : Nat :=
  s.foldl (fun acc c => acc * 10 + digitVal c) 0

/-- Syntactic parse of Go `strconv.ParseInt(s, 10, 64)` ignoring the
64-bit range: optional sign followed by at least one digit.  Returns
the signed value, or `none` on a syntax error. -/
def goAtoiParse (s : List Char) : Option Int :=
  let (neg, body) :=
    match s with
    | '-' :: rest => (true, rest)
    | '+' :: rest => (false, rest)
    | _ => (false, s)
  if body.isEmpty || !(body.all Char.isDigit) then none
  else
    let v : Int := (digitsToNat body : Int)
    some (if neg then -v else v)

/-- Go `strconv.Atoi` as used with its error ignored: a syntax error
yields 0, a range error yields the clamped 64-bit value (Go's
`ParseInt` returns the clamped value together with `ErrRange`, and the
callers drop the error). -/
def goAtoi (s : List Char) : Int :=
  match goAtoiParse s with
  | none => 0
  | some v =>
    if v < -(2 ^ 63) then -(2 ^ 63)
    else if (2 ^ 63 : Int) - 1 < v then (2 ^ 63 : Int) - 1
    else v

/-- Whether `strconv.Atoi` succeeds (syntax well-formed and value in
the signed 64-bit range). -/
def goAtoiOk (s : List Char) : Bool :=
  match goAtoiParse s with
  | none => false
  | some v => decide (-(2 ^ 63) ≤ v) && decide (v ≤ (2 ^ 63 : Int) - 1)

/-- Split a mantissa at the decimal point, if any. -/
def splitMantissa (s : List Char) : List Char × Option (List Char) :=
  match splitAllOn '.' s with
  | [whole] => (whole, none)
  | [whole, frac] => (whole, some frac)
  | _ => ([], some [])

/-- Syntactic parse of a plain decimal floating literal, the common
case of Go `strconv.ParseFloat`: optional sign, digits with an
optional fractional part (at least one digit overall), optional
decimal exponent.  `none` means only "not a plain decimal literal";
the further forms ParseFloat accepts (inf/NaN keywords, hex floats,
digit-separating underscores) are recognised separately by
`goFloatSpecialForm` below.  The value is kept exactly in `ℚ`; every
literal a claim exercises (integers and short decimals) is exactly
representable in float64, so this coincides with the Go semantics on
those inputs. -/
def parseFloatQ (s : List Char) : Option ℚ :=
  let (neg, body) :=
    match s with
    | '-' :: rest => (true, rest)
    | '+' :: rest => (false, rest)
    | _ => (false, s)
  let (mant, expPart) :=
    match splitAllOn 'e' (strLower body) with
    | [m] => (m, none)
    | [m, e] => (m, some e)
    | _ => (([] : List Char), some ([] : List Char))
  let (whole, frac?) := splitMantissa mant
  let frac := frac?.getD []
  if !(whole.all Char.isDigit) || !(frac.all Char.isDigit)
      || (whole.isEmpty && frac.isEmpty) then none
  else
    let mval : ℚ := (digitsToNat whole : ℚ) +
      (digitsToNat frac : ℚ) / ((10 : ℚ) ^ frac.length)
    let signedM := if neg then -mval else mval
    match expPart with
    | none => some signedM
    | some e =>
      let (eneg, ebody) :=
        match e with
        | '-' :: rest => (true, rest)
        | '+' :: rest => (false, rest)
        | _ => (false, e)
      if ebody.isEmpty || !(ebody.all Char.isDigit) then none
      else
        let k := digitsToNat ebody
        some (if eneg then signedM / (10 : ℚ) ^ k else signedM * (10 : ℚ) ^ k)

/-- The further forms Go `strconv.ParseFloat` parses successfully, to
values outside the exact rational model: after an optional sign, the
case-insensitive keywords "inf", "infinity" or "nan", a hexadecimal
`0x`/`0X` mantissa, or a token containing a digit-separating
underscore.  The recognizer over-approximates — a malformed hex or
underscore token is also flagged — which only shrinks what the
theorems below assert; it never classifies a ParseFloat syntax error
as a success. -/
def goFloatSpecialForm (s : List Char) : Bool :=
  let body :=
    match s with
    | '-' :: rest => rest
    | '+' :: rest => rest
    | _ => s
  let lower := strLower body
  lower == ("inf".toList) || lower == ("infinity".toList) || lower == ("nan".toList) ||
    startsList ("0x".toList) lower || listHas s '_'

/-- The outcome of Go `strconv.ParseFloat`: a finite value modelled
exactly in `ℚ`; a successful parse of one of the special forms (±Inf,
NaN, hex and underscore-grouped literals — float64 values with no
exact rational model here, exercised by no claim); or a syntax error,
for which ParseFloat returns 0 together with an error. -/
inductive GoFloat where
  | val (q : ℚ)
  | special
  | err
deriving DecidableEq, Repr

/-- Go `strconv.ParseFloat` with the three outcomes separated. -/
def goParseFloatFull (s : List Char) : GoFloat :=
  if goFloatSpecialForm s then .special
  else
    match parseFloatQ s with
    | some q => .val q
    | none => .err

/-- Go `parseFloat` helper of the driver: `strconv.ParseFloat` with the
error ignored, so a syntax error yields 0.  A special-form success is
mapped to 0 as a placeholder for its unrepresentable float64 value: no
claim and no theorem below evaluates a configuration built from such a
value (their hypotheses go through `goParseFloatFull`). -/
def goParseFloat (s : List Char) : ℚ :=
  match goParseFloatFull s with
  | .val q => q
  | .special => 0
  | .err => 0

example : goParseFloatFull ("abc".toList) = GoFloat.err := by decide
example : goParseFloatFull ("inf".toList) = GoFloat.special := by decide
example : goParseFloatFull ("-Infinity".toList) = GoFloat.special := by decide
example : goParseFloatFull ("0x1p3".toList) = GoFloat.special := by decide
example : goParseFloatFull ("1_000".toList) = GoFloat.special := by decide
example : goParseFloatFull ("2.5".toList) = GoFloat.val (5 / 2) := by
  with_unfolding_all decide

/-! ## Print-job configuration (the package-level variables) -/

/-- The mutable package-level configuration of `main.go`, as one value:
`DPI`, `LABEL_W_MM`, `LABEL_H_MM`, `MARGIN_MM`, `GAP_MM`, `DELAY_MS`. -/
structure Config where
  dpi : Int
  labelWMm : ℚ
  labelHMm : ℚ
  marginMm : ℚ
  gapMm : ℚ
  delayMs : Int
deriving DecidableEq, Repr

/-- The defaults from the package `var` block. -/
def defaultConfig : Config :=
  { dpi := 200, labelWMm := 100, labelHMm := 150,
    marginMm := 2, gapMm := 2, delayMs := 200 }

/-- The constant `MM_TO_IN = 0.0393701`. -/
def mmToIn : ℚ := 393701 / 10000000

/-- Go `math.Round` (half away from zero) on an exact rational. -/
def roundGo (q : ℚ) : Int :=
  if 0 ≤ q then round q else -(round (-q))

/-- `PX_W` from `recalcPixels`: `round(LABEL_W_MM * MM_TO_IN * DPI)`.
The float64 product differs from the exact rational by strictly less
than one ulp, which never crosses a rounding boundary for the
configurations exercised here. -/
def pxW (cfg : Config) : Int :=
  roundGo (cfg.labelWMm * mmToIn * (cfg.dpi : ℚ))

/-- `PX_H` from `recalcPixels`. -/
def pxH (cfg : Config) : Int :=
  roundGo (cfg.labelHMm * mmToIn * (cfg.dpi : ℚ))

/-- `MARGIN_PX` from `recalcPixels`. -/
def marginPx (cfg : Config) : Int :=
  roundGo (cfg.marginMm * mmToIn * (cfg.dpi : ℚ))

/-- `SAFE_MARGIN_RIGHT_PX`: computed once at package initialisation
from `SAFE_MARGIN_RIGHT_MM = 4.0` and the initial `DPI = 200`; it is
never recomputed by `recalcPixels`, so it stays fixed even when a
`dpi=` option changes the DPI. -/
def safeMarginRightPx : Int :=
  roundGo (4 * mmToIn * 200)

/-- `parseTwoFloats` from `main.go`: split the value at every 'x'; any
shape other than exactly two parts keeps the current dimensions. -/
def parseTwoFloats (cfg : Config) (s : List Char) : ℚ × ℚ :=
  match splitAllOn 'x' s with
  | [a, b] => (goParseFloat a, goParseFloat b)
  | _ => (cfg.labelWMm, cfg.labelHMm)

/-- The body of the token loop of `parseCupsOptions`: one
`key=value` token applied to the configuration. -/
def applyToken (cfg : Config) (p : List Char) : Config :=
  if listHas p '=' then
    let k := strLower (cutKey p)
    let v := cutVal p
    if k == ("pagesize".toList) then
      let v2 := trimSuffixMm (strLower v)
      if listHas v2 'x' then
        let wh := parseTwoFloats cfg v2
        { cfg with labelWMm := wh.1, labelHMm := wh.2 }
      else cfg
    else if k == ("dpi".toList) then { cfg with dpi := goAtoi v }
    else if k == ("margin".toList) then { cfg with marginMm := goParseFloat v }
    else if k == ("gap".toList) then { cfg with gapMm := goParseFloat v }
    else if k == ("delay".toList) then { cfg with delayMs := goAtoi v }
    else cfg
  else cfg

/-- `parseCupsOptions`: split the option string into fields and apply
each token in order (`recalcPixels` is modelled by the derived
functions `pxW`/`pxH`/`marginPx` being functions of the result). -/
def parseCupsOptions (cfg : Config) (opts : List Char) : Config :=
  (goFields opts).foldl applyToken cfg

example : (parseCupsOptions defaultConfig ("dpi=abc".toList)).dpi = 0 := by decide
example : (parseCupsOptions defaultConfig ("PageSize=Label4x6".toList)).labelWMm = 0 := by
  with_unfolding_all decide
example : (parseCupsOptions defaultConfig ("PageSize=Label4x6".toList)).labelHMm = 6 := by
  with_unfolding_all decide
example : (parseCupsOptions defaultConfig ("pagesize=100x150mm".toList)) = defaultConfig := by
  with_unfolding_all decide
example : pxW defaultConfig = 787 := by with_unfolding_all decide
example : pxH defaultConfig = 1181 := by with_unfolding_all decide
example : safeMarginRightPx = 31 := by with_unfolding_all decide

/-! ## Raster pages and the grid slicer (`isImageBlank`, `cropToLabels`) -/

/-- One pixel, 8-bit channels, as `isImageBlank` sees them after its
`>> 8` normalisation of Go's 16-bit `RGBA()` values. -/
structure RGBA where
  r : Nat
  g : Nat
  b : Nat
  a : Nat
deriving DecidableEq, Repr

/-- A decoded raster image: pixel dimensions plus a total pixel
function (queried only within bounds by the code below). -/
structure Page where
  w : Int
  h : Int
  pix : Int → Int → RGBA

/-- `imaging.Crop` with an already page-clipped rectangle: the region
`[l, r) × [t, b)` of `p`, with the empty image resulting from a
degenerate rectangle (as the library's bounds intersection yields). -/
def cropRegion (p : Page) (l t r b : Int) : Page :=
  { w := max (r - l) 0, h := max (b - t) 0,
    pix := fun x y => p.pix (l + x) (t + y) }

/-- The per-pixel test of `isImageBlank`: every colour channel strictly
above the threshold and a fully opaque alpha. -/
def isWhitePx (threshold : Nat) (px : RGBA) : Bool :=
  decide (threshold < px.r) && decide (threshold < px.g) &&
    decide (threshold < px.b) && (px.a == 255)

/-- Row-major enumeration of the in-bound pixel coordinates of a page. -/
def coordList (p : Page) : List (Int × Int) :=
  (List.range p.h.toNat).flatMap fun y =>
    (List.range p.w.toNat).map fun x => (Int.ofNat x, Int.ofNat y)

/-- The `whitePixels` counter of `isImageBlank`. -/
def whiteCount (p : Page) (threshold : Nat) : Nat :=
  ((coordList p).filter fun c => isWhitePx threshold (p.pix c.1 c.2)).length

/-- `totalPixels` of `isImageBlank`: `bounds.Dx() * bounds.Dy()`. -/
def totalPixels (p : Page) : Int :=
  p.w * p.h

/-- `isImageBlank`: more than 95% of the pixels count as white.  The Go
source compares `float64(white)/float64(total) > 0.95`; over the pixel
counts that arise from images (denominators far below 2^49) the float
comparison agrees exactly with the rational one modelled here, and for
an empty image Go's NaN comparison is false, as is `0 > 0` here. -/
def isImageBlank (p : Page) (threshold : Nat) : Bool :=
  decide ((100 : Int) * (whiteCount p threshold : Int) > 95 * totalPixels p)

/-- The horizontal origin of grid cell column `c` in `cropToLabels`,
including the asymmetric per-column safety offset (`c = 1` shifts right
by `SAFE_MARGIN_RIGHT_PX + 25`, `c = 0` shifts by
`SAFE_MARGIN_RIGHT_PX - 25`). -/
def cellLeft (cfg : Config) (c : Nat) : Int :=
  let left0 : Int := (c : Int) * pxW cfg
  if c == 1 then left0 + safeMarginRightPx + 25
  else if c == 0 then left0 + safeMarginRightPx - 25
  else left0

/-- The vertical origin of grid cell row `r` in `cropToLabels`. -/
def cellTop (cfg : Config) (r : Nat) : Int :=
  (r : Int) * pxH cfg

/-- The clipped crop rectangle of a grid cell, as a page region. -/
def cellRegion (cfg : Config) (page : Page) (r c : Nat) : Page :=
  let left := cellLeft cfg c
  let top := cellTop cfg r
  let right := min (left + pxW cfg) page.w
  let bottom := min (top + pxH cfg) page.h
  cropRegion page left top right bottom

/-- The body of the grid loop of `cropToLabels` for one cell: skip the
cell when its origin is out of bounds, crop and clip, skip when the
region is blank at threshold 240, otherwise emit one label.  The
resize / fit / paste-centre steps that post-process a non-blank crop
are external image-geometry primitives and do not affect whether the
cell emits a label, so the emitted label is modelled by the cropped
region itself; the temp-file write is modelled as succeeding. -/
def processCell (cfg : Config) (page : Page) (r c : Nat) : Option Page :=
  if cellLeft cfg c ≥ page.w ∨ cellTop cfg r ≥ page.h then none
  else
    let cropped := cellRegion cfg page r c
    if isImageBlank cropped 240 then none
    else some cropped

/-- `rows` of `cropToLabels`: 2, capped by `ceil(pageH / PX_H)`.  The
Go code divides in float64; for a zero `PX_H` the float quotient is
+Inf (rows stays 2) while the rational quotient is 0 — no claim
exercises a zero label height. -/
def gridRows (cfg : Config) (page : Page) : Nat :=
  (min 2 (Int.toNat ⌈(page.h : ℚ) / (pxH cfg : ℚ)⌉))

/-- `cols` of `cropToLabels`: 2, capped by `ceil(pageW / PX_W)`. -/
def gridCols (cfg : Config) (page : Page) : Nat :=
  (min 2 (Int.toNat ⌈(page.w : ℚ) / (pxW cfg : ℚ)⌉))

/-- `cropToLabels`: the row-major grid walk, keeping the labels of the
cells that are in bounds and not blank. -/
def cropToLabels (cfg : Config) (page : Page) : List Page :=
  ((List.range (gridRows cfg page)).flatMap fun r =>
    (List.range (gridCols cfg page)).map fun c => (r, c)).filterMap
    fun rc => processCell cfg page rc.1 rc.2

/-- The all-white RGBA pixel. -/
def whiteRGBA : RGBA := { r := 255, g := 255, b := 255, a := 255 }

/-- The all-black opaque RGBA pixel. -/
def blackRGBA : RGBA := { r := 0, g := 0, b := 0, a := 255 }

/-- A completely white page of two label-widths by two label-heights at
the default configuration (1574 × 2362 pixels). -/
def whitePage : Page :=
  { w := 1574, h := 2362, pix := fun _ _ => whiteRGBA }

/-- A 20 × 20 page whose first row is black and which is white
elsewhere: the single clipped grid cell `[6, 20) × [0, 20)` has 280
pixels of which exactly 266 (95%) are white. -/
def page95 : Page :=
  { w := 20, h := 20, pix := fun _ y => if y = 0 then blackRGBA else whiteRGBA }

example : gridRows defaultConfig whitePage = 2 := by with_unfolding_all decide
example : gridCols defaultConfig whitePage = 2 := by with_unfolding_all decide
example : gridRows defaultConfig page95 = 1 := by with_unfolding_all decide
example : gridCols defaultConfig page95 = 1 := by with_unfolding_all decide

/-! ## The bitmap encoder (`pngToTsplFromBuffer`) -/

/-- A grayscale label image as `pngToTsplFromBuffer` holds it after
`imaging.Grayscale` (and its defensive resize to the configured label
pixel size, an external resampling primitive): dimensions plus the
8-bit luminance of each pixel.  The claims quantify over this image. -/
structure GrayImage where
  w : Nat
  h : Nat
  pix : Nat → Nat → Nat

/-- `paddedW := (w + 7) &^ 7`: clearing the low three bits of `w + 7`
rounds `w` up to the next multiple of 8. -/
def padWidth (w : Nat) : Nat :=
  (w + 7) / 8 * 8

/-- The padding step: a white (luminance 255) strip appended on the
right brings the width to `padWidth w`; when the width is already a
multiple of 8 this is the identity on the in-bound pixels. -/
def padImage (img : GrayImage) : GrayImage :=
  { w := padWidth img.w, h := img.h,
    pix := fun x y => if x < img.w then img.pix x y else 255 }

/-- The per-pixel bit of the packing loop: threshold the luminance at
128 (`bit = 1` for dark), then invert (`bit = 1 - bit`). -/
def pixBit (lum : Nat) : Nat :=
  let bit := if lum < 128 then 1 else 0
  1 - bit

/-- The output byte holding pixels `8*i .. 8*i+7` of row `y`:
`bitmap[byteIndex] |= bit << (7 - (x & 7))` accumulates the eight bits
most-significant first, which is the fold below. -/
def byteAt (img : GrayImage) (y i : Nat) : Nat :=
  (List.range 8).foldl (fun acc k => acc * 2 + pixBit (img.pix (8 * i + k) y)) 0

/-- The packed bitmap payload, row-major, `w / 8` bytes per row (the
image passed in always has a width that is a multiple of 8). -/
def bitmapBytes (img : GrayImage) : List Nat :=
  (List.range img.h).flatMap fun y =>
    (List.range (img.w / 8)).map fun i => byteAt img y i

/-- Go `%.0f`: format a float with no fractional digits, rounding
half to even. -/
def fmtF0 (q : ℚ) : Int :=
  let f : Int := ⌊q⌋
  let r : ℚ := q - (f : ℚ)
  if r < 1 / 2 then f
  else if 1 / 2 < r then f + 1
  else if f % 2 = 0 then f else f + 1

/-- Decimal digits of a natural number. -/
def natChars (n : Nat) : List Char :=
  Nat.toDigits 10 n

/-- Decimal rendering of an integer. -/
def intChars (i : Int) : List Char :=
  if i < 0 then '-' :: natChars i.natAbs else natChars i.toNat

/-- The ASCII header of one TSPL command:
`SIZE {W} mm,{H} mm\nGAP {G} mm,0 mm\nCLS\nBITMAP 0,0,{bytesPerRow},{height},1,`. -/
def tsplHeader (cfg : Config) (bytesPerRow h : Nat) : List Char :=
  ("SIZE ".toList) ++ intChars (fmtF0 cfg.labelWMm) ++ (" mm,".toList) ++
    intChars (fmtF0 cfg.labelHMm) ++ (" mm\nGAP ".toList) ++
    intChars (fmtF0 cfg.gapMm) ++ (" mm,0 mm\nCLS\nBITMAP 0,0,".toList) ++
    natChars bytesPerRow ++ (",".toList) ++ natChars h ++ (",1,".toList)

/-- The trailing print directive `\nPRINT 1\n`. -/
def tsplTrailer : List Char :=
  "\nPRINT 1\n".toList

/-- ASCII text as raw bytes. -/
def strB (s : List Char) : List Nat :=
  s.map Char.toNat

/-- `pngToTsplFromBuffer` from the padding step on (decoding,
grayscaling and the defensive resize precede it and are external): pad
the width to a multiple of 8 with white, pack the bits, and emit
header, payload and trailer as one byte stream. -/
def encodeGray (cfg : Config) (img : GrayImage) : List Nat :=
  let padded := padImage img
  let bytesPerRow := padded.w / 8
  strB (tsplHeader cfg bytesPerRow padded.h) ++ bitmapBytes padded ++ strB tsplTrailer

/-- An 8 × 1 all-white grayscale image. -/
def whiteGray8 : GrayImage :=
  { w := 8, h := 1, pix := fun _ _ => 255 }

/-- An 8 × 1 all-black grayscale image. -/
def blackGray8 : GrayImage :=
  { w := 8, h := 1, pix := fun _ _ => 0 }

example : bitmapBytes (padImage whiteGray8) = [255] := by decide
example : bitmapBytes (padImage blackGray8) = [0] := by decide
example : pixBit 127 = 0 ∧ pixBit 128 = 1 := by decide

/-! ## Mode detection (`detectMode`) -/

/-- The three operating modes. -/
inductive Mode where
  | cli
  | filter
  | backend
deriving DecidableEq, Repr

/-- `detectMode` from `main.go`, as a function of `os.Args` (the first
element is `argv[0]`): the `tspl:` URI check, the exact executable-name
aliases, the substring fallbacks, and the six-positional-arguments
filter sniff guarded by the absence of a colon in `argv[0]`. -/
def detectMode (args : List (List Char)) : Mode :=
  if listHas (args.headD []) ':' && startsList ("tspl:".toList) (args.headD []) then .backend
  else if strLower (goBase (args.headD [])) == ("tspl-backend".toList) then .backend
  else if strLower (goBase (args.headD [])) == ("tspl".toList) then .backend
  else if strLower (goBase (args.headD [])) == ("tspl-filter".toList) then .filter
  else if strLower (goBase (args.headD [])) == ("tspl-thermal".toList) then .filter
  else if strContainsSub (strLower (goBase (args.headD []))) ("backend".toList) then .backend
  else if strContainsSub (strLower (goBase (args.headD []))) ("filter".toList) ||
      strContainsSub (strLower (goBase (args.headD []))) ("thermal".toList) then .filter
  else if decide (6 ≤ args.length) && !(listHas (args.headD []) ':') &&
      goAtoiOk (args.getD 1 []) then .filter
  else .cli

/-- The mode-detection function exactly as the claim states it: any
scheme-qualified leading token (one containing a colon) selects
Backend; else a base name containing "backend" selects Backend; else
one containing "filter" or "thermal" selects Filter; else at least six
tokens with an integer first argument and no scheme on the leading
token select Filter; anything else is CLI. -/
def claimDetectMode (args : List (List Char)) : Mode :=
  if listHas (args.headD []) ':' then .backend
  else if strContainsSub (strLower (goBase (args.headD []))) ("backend".toList) then .backend
  else if strContainsSub (strLower (goBase (args.headD []))) ("filter".toList) ||
      strContainsSub (strLower (goBase (args.headD []))) ("thermal".toList) then .filter
  else if decide (6 ≤ args.length) && !(listHas (args.headD []) ':') &&
      goAtoiOk (args.getD 1 []) then .filter
  else .cli

/-- The amended mode-detection function: only a leading token starting
with the literal scheme `tspl:` selects Backend; a lowercased base name
equal to "tspl" or containing "backend" selects Backend (the exact
alias "tspl-backend" is subsumed); a base name containing "filter" or
"thermal" selects Filter (the exact aliases "tspl-filter" and
"tspl-thermal" are subsumed); else the filter sniff; else CLI. -/
def detectModeSpec (args : List (List Char)) : Mode :=
  if startsList ("tspl:".toList) (args.headD []) then .backend
  else if strLower (goBase (args.headD [])) == ("tspl".toList) ||
      strContainsSub (strLower (goBase (args.headD []))) ("backend".toList) then .backend
  else if strContainsSub (strLower (goBase (args.headD []))) ("filter".toList) ||
      strContainsSub (strLower (goBase (args.headD []))) ("thermal".toList) then .filter
  else if decide (6 ≤ args.length) && !(listHas (args.headD []) ':') &&
      goAtoiOk (args.getD 1 []) then .filter
  else .cli

example : detectMode [("tspl".toList)] = .backend := by decide
example : claimDetectMode [("tspl".toList)] = .cli := by decide
example : detectMode [("file:/dev/usb/lp5".toList), ("1".toList), ("u".toList),
  ("t".toList), ("1".toList), ("o".toList)] = .cli := by decide

/-! ## The backend (`modeBackend`) and the device writer (`writeToPrinter`) -/

/-- The device-path normalisation of `writeToPrinter`: when the
identifier contains a colon, keep everything after the first colon and
strip one leading `//`. -/
def resolveDevicePath (dev : List Char) : List Char :=
  if listHas dev ':' then trimLeadSlash2 (afterColon dev) else dev

/-- Filesystem operations on the device, in program order. -/
inductive DevOp where
  | statDev (d : List Char)
  | openDev (d : List Char)
  | writeDev (d : List Char) (data : List Nat)
deriving DecidableEq, Repr

/-- The observable environment of one backend invocation: the argument
vector after `argv[0]` stripping (`modeBackend` receives `os.Args`
minus the program path in backend mode, so `argv[0]` here is the
device URI), the `TSPL_DEVICE` variable (empty when unset), the result
of reading a named file (`none` on a read error), the bytes available
on standard input, and which device paths exist and are writable. -/
structure BackendEnv where
  argv : List (List Char)
  envDevice : List Char
  readFileRes : List Char → Option (List Nat)
  stdinBytes : List Nat
  devOk : List Char → Bool

/-- `writeToPrinter`: resolve the device identifier, stat it, open it
and write the buffer.  The 4096-byte chunked loop with its pacing
sleeps writes the same bytes in order and is modelled as one write
event; a missing device fails after the stat. -/
def writeToPrinterM (ex : List Char → Bool) (tspl : List Nat) (dev : List Char) :
    List DevOp × Except (List Char) Unit :=
  let d := resolveDevicePath dev
  if ex d then
    ([.statDev d, .openDev d, .writeDev d tspl], .ok ())
  else
    ([.statDev d], .error ("printer device not found".toList))

/-- The input-resolution step of `modeBackend` (lines 556-576 of
`main.go`): a seventh argument that is neither empty nor "-" names a
file whose read failure is fatal; otherwise the payload is standard
input (whose read is modelled as succeeding). -/
def backendInput (env : BackendEnv) : Except (List Char) (List Nat) :=
  let a6 := env.argv.getD 6 []
  if decide (7 ≤ env.argv.length) && !(a6 == ([] : List Char)) && !(a6 == ("-".toList)) then
    match env.readFileRes a6 with
    | some d => .ok d
    | none => .error (("backend: failed to read file ".toList) ++ a6)
  else .ok env.stdinBytes

/-- The device-target resolution of `modeBackend`: the `TSPL_DEVICE`
override, else the scheme-stripped leading argument, else the
hard-coded default. -/
def backendDevice (env : BackendEnv) : List Char :=
  let dev :=
    if !(env.envDevice == ([] : List Char)) then env.envDevice
    else
      let uri := env.argv.headD []
      if startsList ("tspl:".toList) uri then trimLeadSlash2 (uri.drop 5)
      else if startsList ("file:".toList) uri then trimLeadSlash2 (uri.drop 5)
      else uri
  if dev == ([] : List Char) then "/dev/usb/lp5".toList else dev

/-- `modeBackend` (job path): the `list` invocation enumerates devices
on standard output and touches no device; a job with fewer than six
arguments, an unreadable named file, or an empty payload fails before
any device operation; otherwise the payload goes to `writeToPrinter`. -/
def modeBackend (env : BackendEnv) : List DevOp × Except (List Char) Unit :=
  if env.argv.length == 1 ||
      (decide (1 < env.argv.length) && (env.argv.getLastD [] == ("list".toList))) then
    ([], .ok ())
  else if env.argv.length < 6 then
    ([], .error ("backend: insufficient args".toList))
  else
    match backendInput env with
    | .error e => ([], .error e)
    | .ok tspl =>
      if tspl.length == 0 then
        ([], .error ("no data to write (got 0 bytes)".toList))
      else
        writeToPrinterM env.devOk tspl (backendDevice env)

example : resolveDevicePath ("tspl:/dev/usb/lp5".toList) = ("/dev/usb/lp5".toList) := by decide
example : resolveDevicePath ("file:///dev/usb/lp5".toList) = ("/dev/usb/lp5".toList) := by decide

/-! ## General lemmas -/

/-- Flat-mapping with blocks of one fixed length multiplies the length. -/
theorem flatMapConstLen {α β : Type} (l : List α) (f : α → List β) (m : Nat)
    (h : ∀ a ∈ l, (f a).length = m) : (l.flatMap f).length = l.length * m := by
  induction l with
  | nil => simp
  | cons a as ih =>
    simp only [List.flatMap_cons, List.length_append, List.length_cons]
    rw [h a (by simp), ih (fun b hb => h b (by simp [hb]))]
    ring

/-- The payload of the packed bitmap has one byte per eight pixel
columns per row. -/
theorem bitmapBytesLength (img : GrayImage) :
    (bitmapBytes img).length = img.h * (img.w / 8) := by
  unfold bitmapBytes
  rw [flatMapConstLen (List.range img.h)
    (fun y => (List.range (img.w / 8)).map fun i => byteAt img y i) (img.w / 8)
    (fun a _ => by rw [List.length_map, List.length_range])]
  rw [List.length_range]

/-- The padded width is a multiple of eight. -/
theorem padWidthMod (w : Nat) : padWidth w % 8 = 0 :=
  Nat.mul_mod_left ((w + 7) / 8) 8

/-- Padding never shrinks the width. -/
theorem lePadWidth (w : Nat) : w ≤ padWidth w := by
  unfold padWidth
  have h1 := Nat.div_add_mod (w + 7) 8
  have h2 : (w + 7) % 8 < 8 := Nat.mod_lt _ (by norm_num)
  omega

/-- Byte count per padded row equals the ceiling of `w / 8`. -/
theorem padWidthDiv (w : Nat) : padWidth w / 8 = (w + 7) / 8 :=
  Nat.mul_div_cancel _ (by norm_num)

/-- A width that is already a multiple of eight is not padded. -/
theorem padWidthEq {w : Nat} (h : w % 8 = 0) : padWidth w = w := by
  unfold padWidth
  have h1 := Nat.div_add_mod (w + 7) 8
  have h2 : (w + 7) % 8 < 8 := Nat.mod_lt _ (by norm_num)
  have h3 := Nat.div_add_mod w 8
  omega

/-- A luminance at or above the threshold packs as bit 1. -/
theorem pixBitOfBright {lum : Nat} (h : 128 ≤ lum) : pixBit lum = 1 := by
  simp [pixBit, if_neg (by omega : ¬ lum < 128)]

/-- A luminance below the threshold packs as bit 0. -/
theorem pixBitOfDark {lum : Nat} (h : lum < 128) : pixBit lum = 0 := by
  simp [pixBit, if_pos h]

/-- A byte whose eight source pixels all pack as bit 1 is 0xFF. -/
theorem byteAtOnes (img : GrayImage) (y i : Nat)
    (h : ∀ k, k < 8 → pixBit (img.pix (8 * i + k) y) = 1) : byteAt img y i = 255 := by
  unfold byteAt
  rw [show List.range 8 = [0, 1, 2, 3, 4, 5, 6, 7] from rfl]
  simp only [List.foldl_cons, List.foldl_nil]
  rw [h 0 (by norm_num), h 1 (by norm_num), h 2 (by norm_num), h 3 (by norm_num),
    h 4 (by norm_num), h 5 (by norm_num), h 6 (by norm_num), h 7 (by norm_num)]

/-- A byte whose eight source pixels all pack as bit 0 is 0x00. -/
theorem byteAtZeros (img : GrayImage) (y i : Nat)
    (h : ∀ k, k < 8 → pixBit (img.pix (8 * i + k) y) = 0) : byteAt img y i = 0 := by
  unfold byteAt
  rw [show List.range 8 = [0, 1, 2, 3, 4, 5, 6, 7] from rfl]
  simp only [List.foldl_cons, List.foldl_nil]
  rw [h 0 (by norm_num), h 1 (by norm_num), h 2 (by norm_num), h 3 (by norm_num),
    h 4 (by norm_num), h 5 (by norm_num), h 6 (by norm_num), h 7 (by norm_num)]

/-- On an everywhere-white page every pixel is counted. -/
theorem whiteCountAll (p : Page) (t : Nat)
    (h : ∀ x y, isWhitePx t (p.pix x y) = true) :
    whiteCount p t = p.h.toNat * p.w.toNat := by
  unfold whiteCount
  rw [List.filter_eq_self.2 (fun c _ => h c.1 c.2)]
  unfold coordList
  rw [flatMapConstLen (List.range p.h.toNat)
    (fun y => (List.range p.w.toNat).map fun x => (Int.ofNat x, Int.ofNat y)) p.w.toNat
    (fun a _ => by rw [List.length_map, List.length_range])]
  rw [List.length_range]

/-- A non-degenerate region whose pixels are all white is blank. -/
theorem blankOfAllWhite (p : Page) (hw : 0 < p.w) (hh : 0 < p.h)
    (h : ∀ x y, isWhitePx 240 (p.pix x y) = true) : isImageBlank p 240 = true := by
  unfold isImageBlank totalPixels
  rw [whiteCountAll p 240 h]
  rw [decide_eq_true_eq]
  have hW : ((p.w.toNat : Int)) = p.w := Int.toNat_of_nonneg (by omega)
  have hH : ((p.h.toNat : Int)) = p.h := Int.toNat_of_nonneg (by omega)
  push_cast
  rw [hW, hH]
  nlinarith [mul_pos hw hh]

/-- A blank region makes its grid cell emit nothing. -/
theorem processCellOfBlank (cfg : Config) (page : Page) (r c : Nat)
    (h : isImageBlank (cellRegion cfg page r c) 240 = true) :
    processCell cfg page r c = none := by
  unfold processCell
  simp [h]

/-- A successful `startsList` exhibits the needle as a prefix. -/
theorem startsListAppend {pre s : List Char} (h : startsList pre s = true) :
    ∃ t, s = pre ++ t := by
  induction pre generalizing s with
  | nil => exact ⟨s, rfl⟩
  | cons a as ih =>
    cases s with
    | nil => simp [startsList] at h
    | cons b bs =>
      simp only [startsList, Bool.and_eq_true, beq_iff_eq] at h
      obtain ⟨rfl, h2⟩ := h
      obtain ⟨t, rfl⟩ := ih h2
      exact ⟨t, rfl⟩

/-- A token beginning with the scheme `tspl:` contains a colon. -/
theorem listHasOfTsplScheme {s : List Char} (h : startsList ("tspl:".toList) s = true) :
    listHas s ':' = true := by
  obtain ⟨t, rfl⟩ := startsListAppend h
  unfold listHas
  rw [List.any_append, Bool.or_eq_true]
  left
  decide

/-! ## Claim theorems -/

/-- C7: for every label image the encoder processes, the padded width
is a multiple of 8 and at least the original width, the height is
never padded, and the emitted bitmap payload holds exactly
`ceil(W/8) * H` bytes — `H` byte-aligned rows. -/
theorem paddingInvariant (img : GrayImage) :
    padWidth img.w % 8 = 0 ∧ img.w ≤ padWidth img.w ∧
    (padImage img).h = img.h ∧
    (bitmapBytes (padImage img)).length = ((img.w + 7) / 8) * img.h := by
  refine ⟨padWidthMod img.w, lePadWidth img.w, rfl, ?_⟩
  rw [bitmapBytesLength]
  show img.h * (padWidth img.w / 8) = _
  rw [padWidthDiv, Nat.mul_comm]

/-- C4: the byte stream emitted for one label is exactly the ASCII
header `SIZE {W} mm,{H} mm\nGAP {G} mm,0 mm\nCLS\nBITMAP
0,0,{bytesPerRow},{height},1,` (the content of `tsplHeader`),
immediately followed by exactly `bytesPerRow * height` raw packed
payload bytes with no other length prefix, followed by `\nPRINT 1\n`
(newline, the print directive for one copy, final newline). -/
theorem wireFormatExact (cfg : Config) (img : GrayImage) :
    encodeGray cfg img =
      strB (tsplHeader cfg (padWidth img.w / 8) img.h) ++
        bitmapBytes (padImage img) ++ strB tsplTrailer ∧
    (bitmapBytes (padImage img)).length = (padWidth img.w / 8) * img.h := by
  refine ⟨rfl, ?_⟩
  rw [bitmapBytesLength]
  show img.h * (padWidth img.w / 8) = _
  rw [Nat.mul_comm]

/-- C2 counterexample: the claim predicts that an entirely white label
encodes to an all-zero payload; the 8 × 1 all-white image in fact
encodes to the single byte 0xFF. -/
theorem encoderPolarityCounterexample :
    bitmapBytes (padImage whiteGray8) = [255] ∧
    ¬ bitmapBytes (padImage whiteGray8) = List.replicate 1 0 := by
  exact ⟨by decide, by decide⟩

/-- C2 amended: after the polarity inversion an entirely white label
image (every luminance at or above the 128 threshold) packs to an
all-0xFF payload, an entirely dark label image of byte-aligned width
packs to an all-zero payload, and per pixel a luminance below 128
yields packed bit 0 while a luminance at or above 128 yields packed
bit 1. -/
theorem encoderPolarity (img : GrayImage) :
    ((∀ x y, 128 ≤ img.pix x y) →
      bitmapBytes (padImage img) = List.replicate (img.h * (padWidth img.w / 8)) 255) ∧
    (img.w % 8 = 0 → (∀ x y, img.pix x y < 128) →
      bitmapBytes (padImage img) = List.replicate (img.h * (padWidth img.w / 8)) 0) ∧
    (∀ lum, (pixBit lum = 0 ↔ lum < 128) ∧ (pixBit lum = 1 ↔ 128 ≤ lum)) := by
  refine ⟨?_, ?_, ?_⟩
  · intro h
    apply List.eq_replicate_iff.2
    constructor
    · rw [bitmapBytesLength]
      rfl
    · intro b hb
      unfold bitmapBytes at hb
      rw [List.mem_flatMap] at hb
      obtain ⟨y, _, hb⟩ := hb
      rw [List.mem_map] at hb
      obtain ⟨i, _, rfl⟩ := hb
      apply byteAtOnes
      intro k _
      apply pixBitOfBright
      show 128 ≤ (if 8 * i + k < img.w then img.pix (8 * i + k) y else 255)
      split
      · exact h _ _
      · norm_num
  · intro hmod h
    apply List.eq_replicate_iff.2
    constructor
    · rw [bitmapBytesLength]
      rfl
    · intro b hb
      unfold bitmapBytes at hb
      rw [List.mem_flatMap] at hb
      obtain ⟨y, _, hb⟩ := hb
      rw [List.mem_map] at hb
      obtain ⟨i, hi, rfl⟩ := hb
      rw [List.mem_range] at hi
      apply byteAtZeros
      intro k hk
      apply pixBitOfDark
      have hwlt : 8 * i + k < img.w := by
        have hpad : (padImage img).w = img.w := padWidthEq hmod
        rw [hpad] at hi
        have h8 : 8 * (i + 1) ≤ 8 * (img.w / 8) := by omega
        have := Nat.mul_div_le img.w 8
        have h9 := Nat.div_add_mod img.w 8
        omega
      show (if 8 * i + k < img.w then img.pix (8 * i + k) y else 255) < 128
      rw [if_pos hwlt]
      exact h _ _
  · intro lum
    by_cases h : lum < 128
    · simp [pixBit, h]
    · simp [pixBit, h]
      omega

/-- C2 witness: the amended theorem evaluated on the concrete 8 × 1
all-white and all-black images. -/
theorem encoderPolarityWitness :
    bitmapBytes (padImage whiteGray8) = List.replicate (1 * (padWidth 8 / 8)) 255 ∧
    bitmapBytes (padImage blackGray8) = List.replicate (1 * (padWidth 8 / 8)) 0 :=
  ⟨(encoderPolarity whiteGray8).1 (fun _ _ => by norm_num [whiteGray8]),
   (encoderPolarity blackGray8).2.1 rfl (fun _ _ => by norm_num [blackGray8])⟩

/-- C6 counterexample: the single clipped grid cell of `page95` has
exactly 95% white pixels — the claim's "at least 95%" case, for which
it predicts zero labels — yet `cropToLabels` emits one label, because
the code requires strictly more than 95%. -/
theorem blankThresholdCounterexample :
    100 * (whiteCount (cellRegion defaultConfig page95 0 0) 240 : Int) =
      95 * totalPixels (cellRegion defaultConfig page95 0 0) ∧
    (cropToLabels defaultConfig page95).length = 1 := by
  constructor
  · with_unfolding_all decide
  · with_unfolding_all decide

/-- C6 amended: an in-bounds grid cell yields zero labels exactly when
strictly more than 95% of the pixels of its clipped crop have all
three colour channels above the 240 threshold with fully opaque alpha
(so a region with exactly 95% such pixels, like one with 94%, yields
one label). -/
theorem blankRejectionIff (cfg : Config) (page : Page) (r c : Nat)
    (h1 : cellLeft cfg c < page.w) (h2 : cellTop cfg r < page.h) :
    processCell cfg page r c = none ↔
      100 * (whiteCount (cellRegion cfg page r c) 240 : Int) >
        95 * totalPixels (cellRegion cfg page r c) := by
  unfold processCell
  rw [if_neg (by push_neg; omega)]
  by_cases hb : isImageBlank (cellRegion cfg page r c) 240 = true
  · rw [if_pos hb]
    unfold isImageBlank at hb
    rw [decide_eq_true_eq] at hb
    simp [hb]
  · rw [if_neg hb]
    unfold isImageBlank at hb
    rw [decide_eq_true_eq] at hb
    simp [hb]

/-- C6 witness: the amended equivalence instantiated at the in-bounds
cell (0,0) of `page95` under the default configuration. -/
theorem blankRejectionIffWitness :
    processCell defaultConfig page95 0 0 = none ↔
      100 * (whiteCount (cellRegion defaultConfig page95 0 0) 240 : Int) >
        95 * totalPixels (cellRegion defaultConfig page95 0 0) :=
  blankRejectionIff defaultConfig page95 0 0
    (by with_unfolding_all decide) (by with_unfolding_all decide)

/-- C1: there is no full-page mode.  The option `PageSize=Label4x6` —
a documented nominal single-label size — is parsed by the generic
`<W>x<H>` rule and sets the label to 0 mm × 6 mm instead of selecting
a full-page policy, `pagesize=100x150mm` (the nominal 4 × 6 inch label
size) merely reproduces the default dimensions with no mode switch in
the configuration, and under it the slicer still walks a 2 × 2 grid
with the blank check applied to every cell, so an all-white page
yields zero labels rather than one white full-page canvas. -/
theorem fullPageModeAbsent :
    (parseCupsOptions defaultConfig ("PageSize=Label4x6".toList)).labelWMm = 0 ∧
    (parseCupsOptions defaultConfig ("PageSize=Label4x6".toList)).labelHMm = 6 ∧
    parseCupsOptions defaultConfig ("pagesize=100x150mm".toList) = defaultConfig ∧
    gridRows defaultConfig whitePage = 2 ∧
    gridCols defaultConfig whitePage = 2 ∧
    cropToLabels defaultConfig whitePage = [] := by
  refine ⟨by with_unfolding_all decide, by with_unfolding_all decide,
    by with_unfolding_all decide, by with_unfolding_all decide,
    by with_unfolding_all decide, ?_⟩
  have hwhite : ∀ r c : Nat, ∀ x y : Int,
      isWhitePx 240 ((cellRegion defaultConfig whitePage r c).pix x y) = true :=
    fun _ _ _ _ => rfl
  have hdim : ∀ r c : Nat, r < 2 → c < 2 →
      0 < (cellRegion defaultConfig whitePage r c).w ∧
      0 < (cellRegion defaultConfig whitePage r c).h := by
    intro r c hr hc
    interval_cases r <;> interval_cases c <;>
      exact ⟨by with_unfolding_all decide, by with_unfolding_all decide⟩
  have hnone : ∀ r c : Nat, r < 2 → c < 2 →
      processCell defaultConfig whitePage r c = none := by
    intro r c hr hc
    exact processCellOfBlank _ _ _ _
      (blankOfAllWhite _ (hdim r c hr hc).1 (hdim r c hr hc).2 (hwhite r c))
  unfold cropToLabels
  rw [show gridRows defaultConfig whitePage = 2 from by with_unfolding_all decide,
    show gridCols defaultConfig whitePage = 2 from by with_unfolding_all decide]
  rw [show ((List.range 2).flatMap fun r => (List.range 2).map fun c => (r, c)) =
    [(0, 0), (0, 1), (1, 0), (1, 1)] from rfl]
  simp [List.filterMap_cons, hnone 0 0 (by norm_num) (by norm_num),
    hnone 0 1 (by norm_num) (by norm_num), hnone 1 0 (by norm_num) (by norm_num),
    hnone 1 1 (by norm_num) (by norm_num)]

/-- C5 counterexample: on the invocation vector `["tspl"]` the claimed
detection function yields CLI (no scheme, no backend/filter/thermal
substring, fewer than six tokens) while the program selects Backend
through the exact executable-name alias "tspl". -/
theorem modeDetectionCounterexample :
    detectMode [("tspl".toList)] = Mode.backend ∧
    claimDetectMode [("tspl".toList)] = Mode.cli := by
  exact ⟨by decide, by decide⟩

/-- C5 amended: mode detection equals the total function that selects
Backend for a leading token with the literal scheme `tspl:` (not any
scheme), Backend for a lowercased base name equal to "tspl" or
containing "backend", Filter for one containing "filter" or "thermal",
Filter for at least six tokens with an integer first argument and no
colon in the leading token, and CLI otherwise. -/
theorem modeDetectionTotal (args : List (List Char)) :
    detectMode args = detectModeSpec args := by
  unfold detectMode detectModeSpec
  by_cases h1 : startsList ("tspl:".toList) (args.headD []) = true
  · rw [listHasOfTsplScheme h1, h1]
    rfl
  · have h1' : startsList ("tspl:".toList) (args.headD []) = false :=
      Bool.eq_false_iff.2 h1
    rw [h1', Bool.and_false, if_neg Bool.false_ne_true, if_neg Bool.false_ne_true]
    by_cases e1 : (strLower (goBase (args.headD [])) == ("tspl-backend".toList)) = true
    · rw [if_pos e1]
      have hsub : strContainsSub (strLower (goBase (args.headD []))) ("backend".toList) = true := by
        rw [eq_of_beq e1]; decide
      rw [hsub, Bool.or_true, if_pos rfl]
    · rw [if_neg e1]
      by_cases e2 : (strLower (goBase (args.headD [])) == ("tspl".toList)) = true
      · rw [if_pos e2, e2, Bool.true_or, if_pos rfl]
      · rw [if_neg e2]
        have e2' : (strLower (goBase (args.headD [])) == ("tspl".toList)) = false :=
          Bool.eq_false_iff.2 e2
        by_cases e3 : (strLower (goBase (args.headD [])) == ("tspl-filter".toList)) = true
        · rw [if_pos e3]
          have hb : strContainsSub (strLower (goBase (args.headD []))) ("backend".toList) = false := by
            rw [eq_of_beq e3]; decide
          have hf : strContainsSub (strLower (goBase (args.headD []))) ("filter".toList) = true := by
            rw [eq_of_beq e3]; decide
          rw [e2', hb, Bool.or_self, if_neg Bool.false_ne_true, hf, Bool.true_or, if_pos rfl]
        · rw [if_neg e3]
          by_cases e4 : (strLower (goBase (args.headD [])) == ("tspl-thermal".toList)) = true
          · rw [if_pos e4]
            have hb : strContainsSub (strLower (goBase (args.headD []))) ("backend".toList) = false := by
              rw [eq_of_beq e4]; decide
            have hf : strContainsSub (strLower (goBase (args.headD []))) ("filter".toList) = false := by
              rw [eq_of_beq e4]; decide
            have ht : strContainsSub (strLower (goBase (args.headD []))) ("thermal".toList) = true := by
              rw [eq_of_beq e4]; decide
            rw [e2', hb, Bool.or_self, if_neg Bool.false_ne_true, hf, ht, Bool.or_true, if_pos rfl]
          · rw [if_neg e4]
            by_cases s1 : strContainsSub (strLower (goBase (args.headD []))) ("backend".toList) = true
            · rw [if_pos s1, s1, Bool.or_true, if_pos rfl]
            · have s1' : strContainsSub (strLower (goBase (args.headD []))) ("backend".toList) = false :=
                Bool.eq_false_iff.2 s1
              rw [if_neg s1, e2', s1', Bool.or_self, if_neg Bool.false_ne_true]

/-- C8: the device writer resolves `tspl:/dev/usb/lp5` and
`file:///dev/usb/lp5` to `/dev/usb/lp5`, passes a scheme-less
identifier through unchanged, and performs the resolution before any
filesystem operation — its first device operation is the stat of the
resolved path. -/
theorem deviceResolution :
    resolveDevicePath ("tspl:/dev/usb/lp5".toList) = ("/dev/usb/lp5".toList) ∧
    resolveDevicePath ("file:///dev/usb/lp5".toList) = ("/dev/usb/lp5".toList) ∧
    (∀ d, listHas d ':' = false → resolveDevicePath d = d) ∧
    (∀ ex tspl dev, (writeToPrinterM ex tspl dev).1.head? =
      some (DevOp.statDev (resolveDevicePath dev))) := by
  refine ⟨by decide, by decide, ?_, ?_⟩
  · intro d h
    simp [resolveDevicePath, h]
  · intro ex tspl dev
    cases hx : ex (resolveDevicePath dev) <;> simp [writeToPrinterM, hx]

/-- C8 witness: the pass-through clause applied to the bare path
`/dev/usb/lp0`, and the stat-first clause at a concrete writer call. -/
theorem deviceResolutionWitness :
    resolveDevicePath ("/dev/usb/lp0".toList) = ("/dev/usb/lp0".toList) ∧
    (writeToPrinterM (fun _ => true) [1] ("tspl:/dev/usb/lp5".toList)).1.head? =
      some (DevOp.statDev (resolveDevicePath ("tspl:/dev/usb/lp5".toList))) :=
  ⟨deviceResolution.2.2.1 ("/dev/usb/lp0".toList) (by decide),
   deviceResolution.2.2.2 (fun _ => true) [1] ("tspl:/dev/usb/lp5".toList)⟩

/-- A backend job invocation whose trailing named file cannot be read
(`readFileRes` yields `none`), with the `tspl:` device URI, a job id,
user, title, copy count, empty options and the file name `job.pdf`. -/
def envUnreadableFile : BackendEnv :=
  { argv := [("tspl:/dev/usb/lp5".toList), ("1".toList), ("user".toList),
      ("title".toList), ("1".toList), ([] : List Char), ("job.pdf".toList)],
    envDevice := [],
    readFileRes := fun _ => none,
    stdinBytes := [72],
    devOk := fun _ => true }

/-- A second such invocation, used to instantiate the amended theorem:
different document name, and a device that does not even exist (which
cannot matter, since the failure precedes any device operation). -/
def envUnreadableFile2 : BackendEnv :=
  { argv := [("tspl:/dev/usb/lp4".toList), ("2".toList), ("root".toList),
      ("doc".toList), ("1".toList), ([] : List Char), ("doc.pdf".toList)],
    envDevice := [],
    readFileRes := fun _ => none,
    stdinBytes := [],
    devOk := fun _ => false }

/-- C3 counterexample: with an unreadable trailing file argument the
backend invocation fails with the read error and performs no device
operation — it does not re-run any rasterize→slice→encode pipeline as
the claim asserts (the embedded `modeBackend`, like lines 556-576 of
`main.go`, has no such path). -/
theorem backendNoFallbackCounterexample :
    modeBackend envUnreadableFile =
      ([], Except.error (("backend: failed to read file ".toList) ++ ("job.pdf".toList))) := by
  rfl

/-- C3 amended: for every backend job invocation whose supplied
trailing file argument cannot be read, the invocation fails with the
file-read error (touching no device); there is no fallback document
pipeline. -/
theorem backendFileReadFatal (env : BackendEnv)
    (hlen : 7 ≤ env.argv.length)
    (hlast : env.argv.getLastD [] ≠ ("list".toList))
    (ha6e : env.argv.getD 6 [] ≠ ([] : List Char))
    (ha6d : env.argv.getD 6 [] ≠ ("-".toList))
    (hread : env.readFileRes (env.argv.getD 6 []) = none) :
    modeBackend env =
      ([], Except.error (("backend: failed to read file ".toList) ++ env.argv.getD 6 [])) := by
  unfold modeBackend backendInput
  have h1 : (env.argv.length == 1) = false :=
    beq_eq_false_iff_ne.2 (by omega)
  have h2 : (env.argv.getLastD [] == ("list".toList)) = false :=
    beq_eq_false_iff_ne.2 hlast
  rw [h1, h2, Bool.and_false, Bool.false_or, if_neg Bool.false_ne_true,
    if_neg (by omega : ¬ env.argv.length < 6)]
  have h3 : (decide (7 ≤ env.argv.length) &&
      !(env.argv.getD 6 [] == ([] : List Char)) &&
      !(env.argv.getD 6 [] == ("-".toList))) = true := by
    rw [decide_eq_true hlen, beq_eq_false_iff_ne.2 ha6e, beq_eq_false_iff_ne.2 ha6d]
    rfl
  rw [if_pos h3, hread]

/-- C3 witness: the amended theorem applied to the second concrete
unreadable-file invocation. -/
theorem backendFileReadFatalWitness :
    modeBackend envUnreadableFile2 =
      ([], Except.error (("backend: failed to read file ".toList) ++
        envUnreadableFile2.argv.getD 6 [])) :=
  backendFileReadFatal envUnreadableFile2 (by decide) (by decide) (by decide)
    (by decide) rfl

/-- A backend job invocation with six arguments (no trailing file) and
an empty standard input, against an existing device. -/
def envEmptyStdin : BackendEnv :=
  { argv := [("tspl:/dev/usb/lp5".toList), ("1".toList), ("user".toList),
      ("title".toList), ("1".toList), ([] : List Char)],
    envDevice := [],
    readFileRes := fun _ => some [1],
    stdinBytes := [],
    devOk := fun _ => true }

/-- C10: a backend job invocation whose resolved input payload is
empty fails with the no-data error and produces an empty device
operation trace — the device target is never stat-ed, opened or
written. -/
theorem emptyPayloadNoDeviceTouch (env : BackendEnv)
    (hlen : 6 ≤ env.argv.length)
    (hlast : env.argv.getLastD [] ≠ ("list".toList))
    (hinput : backendInput env = .ok []) :
    modeBackend env = ([], Except.error ("no data to write (got 0 bytes)".toList)) := by
  unfold modeBackend
  have h1 : (env.argv.length == 1) = false :=
    beq_eq_false_iff_ne.2 (by omega)
  have h2 : (env.argv.getLastD [] == ("list".toList)) = false :=
    beq_eq_false_iff_ne.2 hlast
  rw [h1, h2, Bool.and_false, Bool.false_or, if_neg Bool.false_ne_true,
    if_neg (by omega : ¬ env.argv.length < 6), hinput]
  rfl

/-- C10 witness: the theorem applied to the concrete empty-stdin
invocation. -/
theorem emptyPayloadNoDeviceTouchWitness :
    modeBackend envEmptyStdin =
      ([], Except.error ("no data to write (got 0 bytes)".toList)) :=
  emptyPayloadNoDeviceTouch envEmptyStdin (by decide) (by decide) rfl

/-- C9 counterexample: the claim predicts that the malformed token
`dpi=abc` leaves DPI at its prior value; the parser instead overwrites
it with Go's zero value for a failed `Atoi`. -/
theorem optionZeroCounterexample :
    (parseCupsOptions defaultConfig ("dpi=abc".toList)).dpi = 0 ∧
    (parseCupsOptions defaultConfig ("dpi=abc".toList)).dpi ≠ defaultConfig.dpi := by
  exact ⟨by decide, by decide⟩

/-- C9 amended: option parsing never fails the invocation (it is a
total function); a token without '=' or with an unknown key leaves the
configuration unchanged, as does a pagesize value that does not
contain an 'x' after case folding and "mm" stripping; but a value that
Go's number parsing rejects as a syntax error overwrites the parameter
with 0 — Go's zero result of the ignored strconv error — rather than
keeping the prior value, for each of dpi, margin, gap and delay.  (For
margin and gap the rejected values are those that are neither plain
decimal literals nor the special inf/nan/hex/underscore forms that
ParseFloat parses successfully; for dpi and delay a syntactically
valid but out-of-range value is clamped, not zeroed, so the
hypothesis is the syntax-error case.) -/
theorem optionErrorHandling (cfg : Config) :
    (∀ tok, listHas tok '=' = false → applyToken cfg tok = cfg) ∧
    (∀ tok, listHas tok '=' = true →
      strLower (cutKey tok) ≠ ("pagesize".toList) →
      strLower (cutKey tok) ≠ ("dpi".toList) →
      strLower (cutKey tok) ≠ ("margin".toList) →
      strLower (cutKey tok) ≠ ("gap".toList) →
      strLower (cutKey tok) ≠ ("delay".toList) →
      applyToken cfg tok = cfg) ∧
    (∀ v, goAtoiParse v = none →
      applyToken cfg (("dpi=".toList) ++ v) = { cfg with dpi := 0 }) ∧
    (∀ v, goParseFloatFull v = GoFloat.err →
      applyToken cfg (("margin=".toList) ++ v) = { cfg with marginMm := 0 }) ∧
    (∀ v, goParseFloatFull v = GoFloat.err →
      applyToken cfg (("gap=".toList) ++ v) = { cfg with gapMm := 0 }) ∧
    (∀ v, goAtoiParse v = none →
      applyToken cfg (("delay=".toList) ++ v) = { cfg with delayMs := 0 }) ∧
    (∀ v, listHas (trimSuffixMm (strLower v)) 'x' = false →
      applyToken cfg (("pagesize=".toList) ++ v) = cfg) := by
  refine ⟨?_, ?_, ?_, ?_, ?_, ?_, ?_⟩
  · intro tok h
    unfold applyToken
    rw [if_neg (by rw [h]; exact Bool.false_ne_true)]
  · intro tok h hk1 hk2 hk3 hk4 hk5
    unfold applyToken
    rw [if_pos h, if_neg (by rw [beq_eq_false_iff_ne.2 hk1]; exact Bool.false_ne_true),
      if_neg (by rw [beq_eq_false_iff_ne.2 hk2]; exact Bool.false_ne_true),
      if_neg (by rw [beq_eq_false_iff_ne.2 hk3]; exact Bool.false_ne_true),
      if_neg (by rw [beq_eq_false_iff_ne.2 hk4]; exact Bool.false_ne_true),
      if_neg (by rw [beq_eq_false_iff_ne.2 hk5]; exact Bool.false_ne_true)]
  · intro v h
    unfold applyToken
    rw [if_pos (by rw [show listHas (("dpi=".toList) ++ v) '=' =
        (listHas ("dpi=".toList) '=' || listHas v '=') from List.any_append,
      show listHas ("dpi=".toList) '=' = true from rfl, Bool.true_or]),
      show cutKey (("dpi=".toList) ++ v) = ("dpi".toList) from rfl,
      show cutVal (("dpi=".toList) ++ v) = v from rfl]
    show { cfg with dpi := goAtoi v } = _
    unfold goAtoi
    rw [h]
  · intro v h
    unfold applyToken
    rw [if_pos (by rw [show listHas (("margin=".toList) ++ v) '=' =
        (listHas ("margin=".toList) '=' || listHas v '=') from List.any_append,
      show listHas ("margin=".toList) '=' = true from rfl, Bool.true_or]),
      show cutKey (("margin=".toList) ++ v) = ("margin".toList) from rfl,
      show cutVal (("margin=".toList) ++ v) = v from rfl]
    show { cfg with marginMm := goParseFloat v } = _
    unfold goParseFloat
    rw [h]
  · intro v h
    unfold applyToken
    rw [if_pos (by rw [show listHas (("gap=".toList) ++ v) '=' =
        (listHas ("gap=".toList) '=' || listHas v '=') from List.any_append,
      show listHas ("gap=".toList) '=' = true from rfl, Bool.true_or]),
      show cutKey (("gap=".toList) ++ v) = ("gap".toList) from rfl,
      show cutVal (("gap=".toList) ++ v) = v from rfl]
    show { cfg with gapMm := goParseFloat v } = _
    unfold goParseFloat
    rw [h]
  · intro v h
    unfold applyToken
    rw [if_pos (by rw [show listHas (("delay=".toList) ++ v) '=' =
        (listHas ("delay=".toList) '=' || listHas v '=') from List.any_append,
      show listHas ("delay=".toList) '=' = true from rfl, Bool.true_or]),
      show cutKey (("delay=".toList) ++ v) = ("delay".toList) from rfl,
      show cutVal (("delay=".toList) ++ v) = v from rfl]
    show { cfg with delayMs := goAtoi v } = _
    unfold goAtoi
    rw [h]
  · intro v h
    unfold applyToken
    rw [if_pos (by rw [show listHas (("pagesize=".toList) ++ v) '=' =
        (listHas ("pagesize=".toList) '=' || listHas v '=') from List.any_append,
      show listHas ("pagesize=".toList) '=' = true from rfl, Bool.true_or]),
      show cutKey (("pagesize=".toList) ++ v) = ("pagesize".toList) from rfl,
      show cutVal (("pagesize=".toList) ++ v) = v from rfl]
    exact if_neg (show ¬ (listHas (trimSuffixMm (strLower v)) 'x' = true) from by
      rw [h]; exact Bool.false_ne_true)

/-- C9 witness: the amended clauses evaluated on the concrete tokens
`nonsense` (no '='), `foo=bar` (unknown key), `dpi=abc`, `margin=abc`,
`gap=abc`, `delay=abc` and `pagesize=a4`. -/
theorem optionErrorHandlingWitness :
    applyToken defaultConfig ("nonsense".toList) = defaultConfig ∧
    applyToken defaultConfig ("foo=bar".toList) = defaultConfig ∧
    applyToken defaultConfig ("dpi=abc".toList) = { defaultConfig with dpi := 0 } ∧
    applyToken defaultConfig ("margin=abc".toList) = { defaultConfig with marginMm := 0 } ∧
    applyToken defaultConfig ("gap=abc".toList) = { defaultConfig with gapMm := 0 } ∧
    applyToken defaultConfig ("delay=abc".toList) = { defaultConfig with delayMs := 0 } ∧
    applyToken defaultConfig ("pagesize=a4".toList) = defaultConfig :=
  ⟨(optionErrorHandling defaultConfig).1 _ (by decide),
   (optionErrorHandling defaultConfig).2.1 _ (by decide) (by decide) (by decide)
     (by decide) (by decide) (by decide),
   (optionErrorHandling defaultConfig).2.2.1 ("abc".toList) (by decide),
   (optionErrorHandling defaultConfig).2.2.2.1 ("abc".toList) (by with_unfolding_all decide),
   (optionErrorHandling defaultConfig).2.2.2.2.1 ("abc".toList) (by with_unfolding_all decide),
   (optionErrorHandling defaultConfig).2.2.2.2.2.1 ("abc".toList) (by decide),
   (optionErrorHandling defaultConfig).2.2.2.2.2.2 ("a4".toList) (by decide)⟩
